import Mathlib

/-!
Verification of `eazyml_upload_extract_information.py`.

The script orchestrates three remote calls (authenticate, upload/index,
extract) guarded by file-based JSON caches.  We embed it shallowly:

* `JSON` models the values Python's `json` module moves between files and
  the remote service (numbers restricted to arbitrary-precision integers;
  IEEE floats are out of scope).
* `json_dumps` models `json.dumps(v, indent=4)` (the only serialisation the
  script performs) and `json_loads` models `json.load` on a file's text.
* The filesystem is an association list from file names to file text; the
  remote service is an `Oracle` of pure response functions; `print` calls
  append to a log; every remote invocation is recorded in a call trace.
* Python exceptions (`KeyError`, `NameError`, …) surface as `Except PyErr`.
-/

set_option maxHeartbeats 1000000

/-- JSON values as handled by Python's `json` module, with numbers
restricted to integers. `obj` lists key/value pairs in insertion order. -/
inductive JSON where
  | null : JSON
  | bool (b : Bool) : JSON
  | int (n : Int) : JSON
  | str (s : String) : JSON
  | arr (xs : List JSON) : JSON
  | obj (kvs : List (String × JSON)) : JSON

mutual

/-- Structural size of a JSON value; an upper bound on the parser fuel it
needs. -/
def jCount : JSON → Nat
  | .null | .bool _ | .int _ | .str _ => 1
  | .arr xs => 1 + jCountList xs
  | .obj kvs => 1 + jCountObj kvs

/-- Structural size of a JSON array body. -/
def jCountList : List JSON → Nat
  | [] => 0
  | x :: t => 1 + jCount x + jCountList t

/-- Structural size of a JSON object body. -/
def jCountObj : List (String × JSON) → Nat
  | [] => 0
  | (_, v) :: t => 1 + jCount v + jCountObj t

end

/-- Decimal digit characters, as Python prints integers. -/
def digitChar : Nat → Char
  | 0 => '0'
  | 1 => '1'
  | 2 => '2'
  | 3 => '3'
  | 4 => '4'
  | 5 => '5'
  | 6 => '6'
  | 7 => '7'
  | 8 => '8'
  | _ => '9'

/-- Decimal digits of a natural number, most significant first. -/
def natDigits (n : Nat) : List Char :=
  if _h : n < 10 then [digitChar n]
  else natDigits (n / 10) ++ [digitChar (n % 10)]
decreasing_by exact Nat.div_lt_self (by omega) (by omega)

/-- Decimal rendering of an integer, as Python's `str`/`json.dumps` print it. -/
def intChars (n : Int) : List Char :=
  if n < 0 then '-' :: natDigits n.natAbs else natDigits n.toNat

/-- Lower-case hexadecimal digit characters, as CPython's `\uXXXX` escapes. -/
def hexChar : Nat → Char
  | 0 => '0'
  | 1 => '1'
  | 2 => '2'
  | 3 => '3'
  | 4 => '4'
  | 5 => '5'
  | 6 => '6'
  | 7 => '7'
  | 8 => '8'
  | 9 => '9'
  | 10 => 'a'
  | 11 => 'b'
  | 12 => 'c'
  | 13 => 'd'
  | 14 => 'e'
  | _ => 'f'

/-- Four-digit hexadecimal rendering used by `\uXXXX` escapes. -/
def hex4 (n : Nat) : List Char :=
  [hexChar (n / 4096 % 16), hexChar (n / 256 % 16), hexChar (n / 16 % 16),
   hexChar (n % 16)]

/-- Escape of one character inside a JSON string, following CPython's
`py_encode_basestring_ascii` (`ensure_ascii=True`, `json.dumps` default):
the short escapes, `\u00XX` for other control characters, raw ASCII
otherwise, `\uXXXX` for the basic multilingual plane and surrogate pairs
beyond it. -/
def escChar (c : Char) : List Char :=
  if c = '"' then ['\\', '"']
  else if c = '\\' then ['\\', '\\']
  else if c = Char.ofNat 8 then ['\\', 'b']
  else if c = '\t' then ['\\', 't']
  else if c = '\n' then ['\\', 'n']
  else if c = Char.ofNat 12 then ['\\', 'f']
  else if c = '\r' then ['\\', 'r']
  else if c.toNat < 32 then '\\' :: 'u' :: hex4 c.toNat
  else if c.toNat < 128 then [c]
  else if c.toNat < 65536 then '\\' :: 'u' :: hex4 c.toNat
  else
    '\\' :: 'u' :: hex4 (55296 + (c.toNat - 65536) / 1024) ++
      '\\' :: 'u' :: hex4 (56320 + (c.toNat - 65536) % 1024)

/-- Escape of a whole character list. -/
def escList : List Char → List Char
  | [] => []
  | c :: t => escChar c ++ escList t

/-- Quoted, escaped rendering of a JSON string. -/
def strChars (s : String) : List Char :=
  '"' :: (escList s.data ++ ['"'])

/-- Newline followed by `ind` spaces: the whitespace `json.dumps` emits
between items when `indent` is set. -/
def nlChars (ind : Nat) : List Char :=
  '\n' :: List.replicate ind ' '

mutual

/-- Characters of `json.dumps(v, indent=4)` at current indentation `ind`. -/
def dumpVal (ind : Nat) : JSON → List Char
  | .null => ['n', 'u', 'l', 'l']
  | .bool false => ['f', 'a', 'l', 's', 'e']
  | .bool true => ['t', 'r', 'u', 'e']
  | .int n => intChars n
  | .str s => strChars s
  | .arr [] => ['[', ']']
  | .arr (x :: t) =>
    '[' :: (nlChars (ind + 4) ++ dumpVal (ind + 4) x ++ dumpItems (ind + 4) t ++
      nlChars ind ++ [']'])
  | .obj [] => ['\x7b', '\x7d']
  | .obj ((k, v) :: t) =>
    '\x7b' :: (nlChars (ind + 4) ++ strChars k ++ ':' :: ' ' ::
      (dumpVal (ind + 4) v ++ dumpPairs (ind + 4) t ++ nlChars ind ++ ['\x7d']))

/-- Remaining array items: `, item` repeated, each on its own line. -/
def dumpItems (ind : Nat) : List JSON → List Char
  | [] => []
  | x :: t => ',' :: (nlChars ind ++ dumpVal ind x ++ dumpItems ind t)

/-- Remaining object pairs: `, "key": value` repeated, each on its own line. -/
def dumpPairs (ind : Nat) : List (String × JSON) → List Char
  | [] => []
  | (k, v) :: t =>
    ',' :: (nlChars ind ++ strChars k ++ ':' :: ' ' ::
      (dumpVal ind v ++ dumpPairs ind t))

end

/-- The text `json.dumps(v, indent=4)` produces. -/
def json_dumps (v : JSON) : String :=
  String.mk (dumpVal 0 v)

/-- Whitespace accepted between JSON tokens. -/
def isWs (c : Char) : Bool :=
  c = ' ' || c = '\n' || c = '\t' || c = '\r'

/-- Drop leading whitespace. -/
def skipWs : List Char → List Char
  | [] => []
  | c :: t => if isWs c then skipWs t else c :: t

/-- Value of a hexadecimal digit character, both cases accepted. -/
def hexVal (c : Char) : Option Nat :=
  if c.isDigit then some (c.toNat - 48)
  else if 97 ≤ c.toNat ∧ c.toNat ≤ 102 then some (c.toNat - 87)
  else if 65 ≤ c.toNat ∧ c.toNat ≤ 70 then some (c.toNat - 55)
  else none

/-- Numeric value of a decimal digit character (assumed to be a digit). -/
def digitVal (c : Char) : Nat := c.toNat - 48

/-- Value of a list of decimal digit characters, accumulator style. -/
def digitsVal (acc : Nat) : List Char → Nat
  | [] => acc
  | c :: t => digitsVal (acc * 10 + digitVal c) t

/-- Read a maximal run of decimal digits; fails when none is present. -/
def parseDigits (cs : List Char) : Option (Nat × List Char) :=
  match cs.takeWhile (fun c => c.isDigit) with
  | [] => none
  | ds => some (digitsVal 0 ds, cs.dropWhile (fun c => c.isDigit))

/-- Prepend a decoded character to a string-body parse result. -/
def strCons (c : Char) : Option (List Char × List Char) →
    Option (List Char × List Char)
  | some (s, r) => some (c :: s, r)
  | none => none

mutual

/-- Parse the body of a JSON string (after the opening quote) up to and
including the closing quote, decoding the escapes `json_dumps` can emit
(plus `\\/`), rejecting raw control characters and lone surrogates as
Python's strict decoder does for the former.  `parseEsc` handles the text
after a backslash, `parseU` a `\\uXXXX` escape, `parseLo` the low half of a
surrogate pair. -/
def parseStrBody : List Char → Option (List Char × List Char)
  | [] => none
  | c :: rest =>
    if c = '"' then some ([], rest)
    else if c = '\\' then parseEsc rest
    else if c.toNat < 32 then none
    else strCons c (parseStrBody rest)

/-- Decode one escape sequence after a backslash, then continue the string. -/
def parseEsc : List Char → Option (List Char × List Char)
  | [] => none
  | e :: r =>
    if e = '"' then strCons '"' (parseStrBody r)
    else if e = '\\' then strCons '\\' (parseStrBody r)
    else if e = '/' then strCons '/' (parseStrBody r)
    else if e = 'b' then strCons (Char.ofNat 8) (parseStrBody r)
    else if e = 'f' then strCons (Char.ofNat 12) (parseStrBody r)
    else if e = 'n' then strCons '\n' (parseStrBody r)
    else if e = 'r' then strCons '\r' (parseStrBody r)
    else if e = 't' then strCons '\t' (parseStrBody r)
    else if e = 'u' then parseU r
    else none

/-- Decode the four hex digits of a `\\uXXXX` escape, then continue. -/
def parseU : List Char → Option (List Char × List Char)
  | a :: b :: c2 :: d :: r1 =>
    match hexVal a, hexVal b, hexVal c2, hexVal d with
    | some ha, some hb, some hc, some hd =>
      let n := 4096 * ha + 256 * hb + 16 * hc + hd
      if 55296 ≤ n ∧ n ≤ 56319 then parseLo n r1
      else if 56320 ≤ n ∧ n ≤ 57343 then none
      else strCons (Char.ofNat n) (parseStrBody r1)
    | _, _, _, _ => none
  | _ => none

/-- Decode the low surrogate after a high one, then continue. -/
def parseLo (hi : Nat) : List Char → Option (List Char × List Char)
  | b1 :: u1 :: e1 :: f1 :: g1 :: h1 :: r2 =>
    if b1 = '\\' ∧ u1 = 'u' then
      match hexVal e1, hexVal f1, hexVal g1, hexVal h1 with
      | some he, some hf, some hg, some hh =>
        let m := 4096 * he + 256 * hf + 16 * hg + hh
        if 56320 ≤ m ∧ m ≤ 57343 then
          strCons (Char.ofNat (65536 + (hi - 55296) * 1024 + (m - 56320)))
            (parseStrBody r2)
        else none
      | _, _, _, _ => none
    else none
  | _ => none

end


mutual

/-- Parse one JSON value after skipping leading whitespace.  `fuel` bounds
the recursion depth; `jCount` of the value suffices. -/
def parseVal : Nat → List Char → Option (JSON × List Char)
  | 0, _ => none
  | fuel + 1, cs =>
    match skipWs cs with
    | [] => none
    | c :: rest =>
      if c = 'n' then
        match rest with
        | 'u' :: 'l' :: 'l' :: r => some (.null, r)
        | _ => none
      else if c = 't' then
        match rest with
        | 'r' :: 'u' :: 'e' :: r => some (.bool true, r)
        | _ => none
      else if c = 'f' then
        match rest with
        | 'a' :: 'l' :: 's' :: 'e' :: r => some (.bool false, r)
        | _ => none
      else if c = '"' then
        match parseStrBody rest with
        | some (s, r) => some (.str (String.mk s), r)
        | none => none
      else if c = '[' then
        match skipWs rest with
        | [] => none
        | c2 :: r2 =>
          if c2 = ']' then some (.arr [], r2)
          else
            match parseItems fuel (c2 :: r2) with
            | some (xs, r3) => some (.arr xs, r3)
            | none => none
      else if c = '\x7b' then
        match skipWs rest with
        | [] => none
        | c2 :: r2 =>
          if c2 = '\x7d' then some (.obj [], r2)
          else
            match parsePairs fuel (c2 :: r2) with
            | some (kvs, r3) => some (.obj kvs, r3)
            | none => none
      else if c = '-' then
        match parseDigits rest with
        | some (n, r) => some (.int (-(n : Int)), r)
        | none => none
      else if c.isDigit then
        match parseDigits (c :: rest) with
        | some (n, r) => some (.int (n : Int), r)
        | none => none
      else none

/-- Parse the items of a non-empty JSON array up to and including `]`. -/
def parseItems : Nat → List Char → Option (List JSON × List Char)
  | 0, _ => none
  | fuel + 1, cs =>
    match parseVal fuel cs with
    | some (v, r) =>
      match skipWs r with
      | [] => none
      | c :: r2 =>
        if c = ']' then some ([v], r2)
        else if c = ',' then
          match parseItems fuel r2 with
          | some (vs, r3) => some (v :: vs, r3)
          | none => none
        else none
    | none => none

/-- Parse the pairs of a non-empty JSON object up to and including the
closing brace. -/
def parsePairs : Nat → List Char → Option (List (String × JSON) × List Char)
  | 0, _ => none
  | fuel + 1, cs =>
    match skipWs cs with
    | [] => none
    | c :: rest =>
      if c = '"' then
        match parseStrBody rest with
        | some (k, r) =>
          match skipWs r with
          | [] => none
          | c2 :: r2 =>
            if c2 = ':' then
              match parseVal fuel r2 with
              | some (v, r3) =>
                match skipWs r3 with
                | [] => none
                | c3 :: r4 =>
                  if c3 = '\x7d' then some ([(String.mk k, v)], r4)
                  else if c3 = ',' then
                    match parsePairs fuel r4 with
                    | some (kvs, r5) => some ((String.mk k, v) :: kvs, r5)
                    | none => none
                  else none
              | none => none
            else none
        | none => none
      else none

end

/-- Parse a whole document as `json.load` does: one value, optionally
surrounded by whitespace, nothing else. -/
def json_loads (s : String) : Option JSON :=
  match parseVal (s.length + 1) s.data with
  | some (v, rest) => if skipWs rest = [] then some v else none
  | none => none

/-! Helper lemmas: whitespace, digits, numbers. -/

theorem char_toNat_valid (c : Char) :
    c.toNat < 55296 ∨ (57343 < c.toNat ∧ c.toNat < 1114112) := by
  rcases c.valid with h | ⟨h1, h2⟩
  · left
    exact h
  · right
    exact ⟨h1, h2⟩

theorem skipWs_ws_append (pre cs : List Char) (h : ∀ c ∈ pre, isWs c = true) :
    skipWs (pre ++ cs) = skipWs cs := by
  induction pre with
  | nil => rfl
  | cons c t ih =>
    have hc := h c (by simp)
    simp [skipWs, hc, ih fun d hd => h d (by simp [hd])]

theorem skipWs_not_ws (c : Char) (cs : List Char) (h : isWs c = false) :
    skipWs (c :: cs) = c :: cs := by
  simp [skipWs, h]

theorem nlChars_ws (ind : Nat) : ∀ c ∈ nlChars ind, isWs c = true := by
  intro c hc
  rcases List.mem_cons.mp hc with rfl | hc
  · rfl
  · rw [List.eq_of_mem_replicate hc]
    rfl

theorem digitChar_isDigit (m : Nat) (h : m < 10) :
    (digitChar m).isDigit = true := by
  interval_cases m <;> decide

theorem digitVal_digitChar (m : Nat) (h : m < 10) :
    digitVal (digitChar m) = m := by
  interval_cases m <;> decide

theorem natDigits_ne_nil (n : Nat) : natDigits n ≠ [] := by
  rw [natDigits]
  split <;> simp

theorem natDigits_all_digits (n : Nat) : ∀ c ∈ natDigits n, c.isDigit = true := by
  induction n using Nat.strong_induction_on with
  | _ n ih =>
    rw [natDigits]
    split
    · intro c hc
      rcases List.mem_singleton.mp hc with rfl
      exact digitChar_isDigit n (by omega)
    · intro c hc
      rcases List.mem_append.mp hc with hc | hc
      · exact ih (n / 10) (Nat.div_lt_self (by omega) (by omega)) c hc
      · rcases List.mem_singleton.mp hc with rfl
        exact digitChar_isDigit _ (Nat.mod_lt _ (by omega))

theorem digitsVal_nil (acc : Nat) : digitsVal acc [] = acc := rfl

theorem digitsVal_cons (acc : Nat) (c : Char) (t : List Char) :
    digitsVal acc (c :: t) = digitsVal (acc * 10 + digitVal c) t := rfl

theorem digitsVal_append (acc : Nat) (l1 l2 : List Char) :
    digitsVal acc (l1 ++ l2) = digitsVal (digitsVal acc l1) l2 := by
  induction l1 generalizing acc with
  | nil => simp [digitsVal_nil]
  | cons c t ih => simp [digitsVal_cons, ih]

theorem digitsVal_natDigits (n acc : Nat) :
    digitsVal acc (natDigits n) = acc * 10 ^ (natDigits n).length + n := by
  induction n using Nat.strong_induction_on generalizing acc with
  | _ n ih =>
    rw [natDigits]
    split
    · next h =>
      simp [digitsVal_cons, digitsVal_nil, digitVal_digitChar n h]
    · next h =>
      rw [digitsVal_append, List.length_append,
        ih (n / 10) (Nat.div_lt_self (by omega) (by omega))]
      simp only [digitsVal_cons, digitsVal_nil, List.length_singleton]
      rw [digitVal_digitChar _ (Nat.mod_lt _ (by omega))]
      rw [pow_add, pow_one, Nat.add_mul, Nat.mul_assoc, Nat.add_assoc]
      congr 1
      omega

theorem digitsVal_natDigits_zero (n : Nat) : digitsVal 0 (natDigits n) = n := by
  rw [digitsVal_natDigits]
  simp

/-- Safe continuations after a printed number: empty, or starting with a
non-digit. -/
def numSafe : List Char → Bool
  | [] => true
  | c :: _ => !c.isDigit

theorem takeWhile_digits (l rest : List Char) (hl : ∀ c ∈ l, c.isDigit = true)
    (hrest : numSafe rest = true) :
    (l ++ rest).takeWhile (fun c => c.isDigit) = l ∧
      (l ++ rest).dropWhile (fun c => c.isDigit) = rest := by
  induction l with
  | nil =>
    cases rest with
    | nil => exact ⟨rfl, rfl⟩
    | cons c t =>
      simp only [numSafe, Bool.not_eq_true'] at hrest
      simp [List.takeWhile, List.dropWhile, hrest]
  | cons c t ih =>
    have hc := hl c (by simp)
    have := ih fun d hd => hl d (by simp [hd])
    simp [List.takeWhile, List.dropWhile, hc, this.1, this.2]

theorem parseDigits_natDigits (n : Nat) (rest : List Char)
    (hrest : numSafe rest = true) :
    parseDigits (natDigits n ++ rest) = some (n, rest) := by
  obtain ⟨h1, h2⟩ := takeWhile_digits (natDigits n) rest (natDigits_all_digits n) hrest
  rw [parseDigits, h1, h2]
  have := natDigits_ne_nil n
  cases hnd : natDigits n with
  | nil => exact absurd hnd this
  | cons d ds =>
    have hz := digitsVal_natDigits_zero n
    rw [hnd] at hz
    simp [hz]

/-! Helper lemmas: string escapes round-trip through the parser. -/

theorem hexVal_hexChar (k : Nat) (h : k < 16) : hexVal (hexChar k) = some k := by
  interval_cases k <;> decide

theorem hex4_cons (n : Nat) (r : List Char) :
    hex4 n ++ r = hexChar (n / 4096 % 16) :: hexChar (n / 256 % 16) ::
      hexChar (n / 16 % 16) :: hexChar (n % 16) :: r := by
  simp [hex4]

theorem hex4_reassemble (n : Nat) (h : n < 65536) :
    4096 * (n / 4096 % 16) + 256 * (n / 256 % 16) + 16 * (n / 16 % 16) +
      n % 16 = n := by
  omega

theorem parseU_hex4 (n : Nat) (hn : n < 65536) (r1 : List Char) :
    parseU (hex4 n ++ r1) =
      if 55296 ≤ n ∧ n ≤ 56319 then parseLo n r1
      else if 56320 ≤ n ∧ n ≤ 57343 then none
      else strCons (Char.ofNat n) (parseStrBody r1) := by
  rw [hex4_cons, parseU]
  rw [hexVal_hexChar _ (Nat.mod_lt _ (by omega)),
    hexVal_hexChar _ (Nat.mod_lt _ (by omega)),
    hexVal_hexChar _ (Nat.mod_lt _ (by omega)),
    hexVal_hexChar _ (Nat.mod_lt _ (by omega))]
  simp only
  rw [hex4_reassemble n hn]

theorem parseLo_hex4 (hi m : Nat) (hm : m < 65536) (r2 : List Char) :
    parseLo hi ('\\' :: 'u' :: (hex4 m ++ r2)) =
      if 56320 ≤ m ∧ m ≤ 57343 then
        strCons (Char.ofNat (65536 + (hi - 55296) * 1024 + (m - 56320)))
          (parseStrBody r2)
      else none := by
  rw [hex4_cons, parseLo]
  rw [hexVal_hexChar _ (Nat.mod_lt _ (by omega)),
    hexVal_hexChar _ (Nat.mod_lt _ (by omega)),
    hexVal_hexChar _ (Nat.mod_lt _ (by omega)),
    hexVal_hexChar _ (Nat.mod_lt _ (by omega))]
  simp only [reduceCtorEq, and_self, if_true, reduceIte]
  rw [hex4_reassemble m hm]

theorem parseStrBody_escChar (c : Char) (tail : List Char) :
    parseStrBody (escChar c ++ tail) = strCons c (parseStrBody tail) := by
  by_cases h1 : c = '"'
  · subst h1
    simp [escChar, parseStrBody, parseEsc]
  by_cases h2 : c = '\\'
  · subst h2
    simp [escChar, parseStrBody, parseEsc]
  by_cases h3 : c = Char.ofNat 8
  · subst h3
    simp [escChar, parseStrBody, parseEsc]
  by_cases h4 : c = '\t'
  · subst h4
    simp [escChar, parseStrBody, parseEsc]
  by_cases h5 : c = '\n'
  · subst h5
    simp [escChar, parseStrBody, parseEsc]
  by_cases h6 : c = Char.ofNat 12
  · subst h6
    simp [escChar, parseStrBody, parseEsc]
  by_cases h7 : c = '\r'
  · subst h7
    simp [escChar, parseStrBody, parseEsc]
  by_cases h8 : c.toNat < 32
  · have he : escChar c ++ tail = '\\' :: 'u' :: (hex4 c.toNat ++ tail) := by
      simp [escChar, h1, h2, h3, h4, h5, h6, h7, h8]
    rw [he, parseStrBody, if_neg (by decide), if_pos (by decide), parseEsc]
    rw [if_neg (by decide), if_neg (by decide), if_neg (by decide),
      if_neg (by decide), if_neg (by decide), if_neg (by decide),
      if_neg (by decide), if_neg (by decide), if_pos (by decide)]
    rw [parseU_hex4 c.toNat (by omega) tail]
    rw [if_neg (by omega), if_neg (by omega), Char.ofNat_toNat]
  by_cases h9 : c.toNat < 128
  · have he : escChar c ++ tail = c :: tail := by
      simp [escChar, h1, h2, h3, h4, h5, h6, h7, h8, h9]
    rw [he, parseStrBody, if_neg h1, if_neg h2, if_neg h8]
  by_cases h10 : c.toNat < 65536
  · have hv := char_toNat_valid c
    have he : escChar c ++ tail = '\\' :: 'u' :: (hex4 c.toNat ++ tail) := by
      simp [escChar, h1, h2, h3, h4, h5, h6, h7, h8, h9, h10]
    rw [he, parseStrBody, if_neg (by decide), if_pos (by decide), parseEsc]
    rw [if_neg (by decide), if_neg (by decide), if_neg (by decide),
      if_neg (by decide), if_neg (by decide), if_neg (by decide),
      if_neg (by decide), if_neg (by decide), if_pos (by decide)]
    rw [parseU_hex4 c.toNat (by omega) tail]
    rw [if_neg (by omega), if_neg (by omega), Char.ofNat_toNat]
  · have hv := char_toNat_valid c
    have he : escChar c ++ tail =
        '\\' :: 'u' :: (hex4 (55296 + (c.toNat - 65536) / 1024) ++
          ('\\' :: 'u' :: (hex4 (56320 + (c.toNat - 65536) % 1024) ++ tail))) := by
      simp [escChar, h1, h2, h3, h4, h5, h6, h7, h8, h9, h10]
    have hdiv : (c.toNat - 65536) / 1024 < 1024 := by omega
    rw [he, parseStrBody, if_neg (by decide), if_pos (by decide), parseEsc]
    rw [if_neg (by decide), if_neg (by decide), if_neg (by decide),
      if_neg (by decide), if_neg (by decide), if_neg (by decide),
      if_neg (by decide), if_neg (by decide), if_pos (by decide)]
    rw [parseU_hex4 _ (by omega)]
    rw [if_pos (by omega)]
    rw [parseLo_hex4 _ _ (by omega) tail]
    rw [if_pos (by omega)]
    have harith : 65536 + (55296 + (c.toNat - 65536) / 1024 - 55296) * 1024 +
        (56320 + (c.toNat - 65536) % 1024 - 56320) = c.toNat := by omega
    rw [harith, Char.ofNat_toNat]

theorem parseStrBody_escList (l rest : List Char) :
    parseStrBody (escList l ++ '"' :: rest) = some (l, rest) := by
  induction l with
  | nil => simp [escList, parseStrBody]
  | cons c t ih =>
    calc parseStrBody (escList (c :: t) ++ '"' :: rest)
        = parseStrBody (escChar c ++ (escList t ++ '"' :: rest)) := by
          simp [escList]
      _ = strCons c (parseStrBody (escList t ++ '"' :: rest)) :=
          parseStrBody_escChar c _
      _ = some (c :: t, rest) := by rw [ih]; rfl

theorem String_mk_data (s : String) : String.mk s.data = s := rfl

theorem isDigit_toNat (c : Char) (h : c.isDigit = true) :
    48 ≤ c.toNat ∧ c.toNat ≤ 57 := by
  simp [Char.isDigit] at h
  exact h

theorem ws_not_digit (c : Char) (h : isWs c = true) : c.isDigit = false := by
  simp [isWs] at h
  rcases h with ((rfl | rfl) | rfl) | rfl <;> decide

theorem digit_aux (c : Char) (h : c.isDigit = true) :
    isWs c = false ∧ c ≠ ']' ∧ c ≠ '\x7d' := by
  have hb := isDigit_toNat c h
  refine ⟨?_, ?_, ?_⟩
  · cases hw : isWs c
    · rfl
    · exfalso
      simp [isWs] at hw
      rcases hw with ((rfl | rfl) | rfl) | rfl <;> exact absurd hb (by decide)
  · intro he
    subst he
    exact absurd hb (by decide)
  · intro he
    subst he
    exact absurd hb (by decide)

theorem intChars_head (n : Int) :
    ∃ c l, intChars n = c :: l ∧ (c = '-' ∨ c.isDigit = true) := by
  rw [intChars]
  split
  · exact ⟨'-', _, rfl, Or.inl rfl⟩
  · cases hnd : natDigits n.toNat with
    | nil => exact absurd hnd (natDigits_ne_nil _)
    | cons d ds =>
      refine ⟨d, ds, rfl, Or.inr (natDigits_all_digits n.toNat d ?_)⟩
      rw [hnd]
      simp

theorem dumpVal_head (ind : Nat) (v : JSON) :
    ∃ c l, dumpVal ind v = c :: l ∧ isWs c = false ∧ c ≠ ']' ∧ c ≠ '\x7d' := by
  cases v with
  | null =>
    exact ⟨'n', ['u', 'l', 'l'], by simp [dumpVal], by decide, by decide, by decide⟩
  | bool b =>
    cases b
    · exact ⟨'f', ['a', 'l', 's', 'e'], by simp [dumpVal], by decide, by decide,
        by decide⟩
    · exact ⟨'t', ['r', 'u', 'e'], by simp [dumpVal], by decide, by decide,
        by decide⟩
  | int n =>
    obtain ⟨c, l, hcl, hc⟩ := intChars_head n
    refine ⟨c, l, by simp [dumpVal, hcl], ?_, ?_, ?_⟩ <;>
      rcases hc with rfl | hd
    · decide
    · exact (digit_aux c hd).1
    · decide
    · exact (digit_aux c hd).2.1
    · decide
    · exact (digit_aux c hd).2.2
  | str s =>
    exact ⟨'"', escList s.data ++ ['"'], by simp [dumpVal, strChars], by decide,
      by decide, by decide⟩
  | arr xs =>
    cases xs with
    | nil => exact ⟨'[', [']'], by simp [dumpVal], by decide, by decide, by decide⟩
    | cons x t =>
      exact ⟨'[', nlChars (ind + 4) ++ dumpVal (ind + 4) x ++ dumpItems (ind + 4) t ++
        nlChars ind ++ [']'], by simp [dumpVal], by decide, by decide, by decide⟩
  | obj kvs =>
    cases kvs with
    | nil =>
      exact ⟨'\x7b', ['\x7d'], by simp [dumpVal], by decide, by decide, by decide⟩
    | cons kv t =>
      obtain ⟨k, v⟩ := kv
      exact ⟨'\x7b', nlChars (ind + 4) ++ strChars k ++ ':' :: ' ' ::
        (dumpVal (ind + 4) v ++ dumpPairs (ind + 4) t ++ nlChars ind ++ ['\x7d']),
        by simp [dumpVal], by decide, by decide, by decide⟩

theorem numSafe_ws_append (mid : List Char) (d : Char) (rest : List Char)
    (hmid : ∀ c ∈ mid, isWs c = true) (hd : d.isDigit = false) :
    numSafe (mid ++ d :: rest) = true := by
  cases mid with
  | nil => simp [numSafe, hd]
  | cons m ms =>
    have := ws_not_digit m (hmid m (by simp))
    simp [numSafe, this]

theorem numSafe_dumpItems (ind : Nat) (t : List JSON) (mid rest : List Char)
    (hmid : ∀ c ∈ mid, isWs c = true) :
    numSafe (dumpItems ind t ++ (mid ++ ']' :: rest)) = true := by
  cases t with
  | nil =>
    simp only [dumpItems, List.nil_append]
    exact numSafe_ws_append mid ']' rest hmid (by decide)
  | cons y t' => simp [dumpItems, numSafe]

theorem numSafe_dumpPairs (ind : Nat) (t : List (String × JSON))
    (mid rest : List Char) (hmid : ∀ c ∈ mid, isWs c = true) :
    numSafe (dumpPairs ind t ++ (mid ++ '\x7d' :: rest)) = true := by
  cases t with
  | nil =>
    simp only [dumpPairs, List.nil_append]
    exact numSafe_ws_append mid '\x7d' rest hmid (by decide)
  | cons kv t' =>
    obtain ⟨k, v⟩ := kv
    simp [dumpPairs, numSafe]

theorem jCount_pos (v : JSON) : 1 ≤ jCount v := by
  cases v <;> simp [jCount]

theorem intChars_ne_nil (n : Int) : intChars n ≠ [] := by
  rw [intChars]
  split
  · simp
  · exact natDigits_ne_nil _

mutual

theorem jCount_le_dump (v : JSON) (ind : Nat) :
    jCount v ≤ (dumpVal ind v).length := by
  cases v with
  | null => simp [jCount, dumpVal]
  | bool b => cases b <;> simp [jCount, dumpVal]
  | int n =>
    cases h : intChars n with
    | nil => exact absurd h (intChars_ne_nil n)
    | cons c l => simp [jCount, dumpVal, h]
  | str s => simp [jCount, dumpVal, strChars]
  | arr xs =>
    cases xs with
    | nil => simp [jCount, jCountList, dumpVal]
    | cons x t =>
      have h1 := jCount_le_dump x (ind + 4)
      have h2 := jCountList_le_dump t (ind + 4)
      simp [jCount, jCountList, dumpVal, nlChars]
      omega
  | obj kvs =>
    cases kvs with
    | nil => simp [jCount, jCountObj, dumpVal]
    | cons kv t =>
      obtain ⟨k, v⟩ := kv
      have h1 := jCount_le_dump v (ind + 4)
      have h2 := jCountObj_le_dump t (ind + 4)
      simp [jCount, jCountObj, dumpVal, nlChars]
      omega

theorem jCountList_le_dump (t : List JSON) (ind : Nat) :
    jCountList t ≤ (dumpItems ind t).length := by
  cases t with
  | nil => simp [jCountList, dumpItems]
  | cons x t' =>
    have h1 := jCount_le_dump x ind
    have h2 := jCountList_le_dump t' ind
    simp [jCountList, dumpItems, nlChars]
    omega

theorem jCountObj_le_dump (t : List (String × JSON)) (ind : Nat) :
    jCountObj t ≤ (dumpPairs ind t).length := by
  cases t with
  | nil => simp [jCountObj, dumpPairs]
  | cons kv t' =>
    obtain ⟨k, v⟩ := kv
    have h1 := jCount_le_dump v ind
    have h2 := jCountObj_le_dump t' ind
    simp [jCountObj, dumpPairs, nlChars]
    omega

end

theorem digit_not_keyword (c : Char) (h : c.isDigit = true) :
    c ≠ 'n' ∧ c ≠ 't' ∧ c ≠ 'f' ∧ c ≠ '"' ∧ c ≠ '[' ∧ c ≠ '\x7b' ∧ c ≠ '-' := by
  have hb := isDigit_toNat c h
  refine ⟨?_, ?_, ?_, ?_, ?_, ?_, ?_⟩ <;>
    · intro he
      subst he
      exact absurd hb (by decide)


theorem parseVal_dash (f : Nat) (cs : List Char) :
    parseVal (f + 1) ('-' :: cs) =
      match parseDigits cs with
      | some (n, r) => some (.int (-(n : Int)), r)
      | none => none := by
  simp [parseVal, skipWs, isWs]

theorem parseVal_quote (f : Nat) (cs : List Char) :
    parseVal (f + 1) ('"' :: cs) =
      match parseStrBody cs with
      | some (s, r) => some (.str (String.mk s), r)
      | none => none := by
  simp [parseVal, skipWs, isWs]

theorem parseVal_digit (f : Nat) (c : Char) (cs : List Char)
    (hd : c.isDigit = true) :
    parseVal (f + 1) (c :: cs) =
      match parseDigits (c :: cs) with
      | some (n, r) => some (.int (n : Int), r)
      | none => none := by
  obtain ⟨k1, k2, k3, k4, k5, k6, k7⟩ := digit_not_keyword c hd
  rw [parseVal, skipWs_not_ws _ _ (digit_aux c hd).1]
  simp [k1, k2, k3, k4, k5, k6, k7, hd]

theorem parseVal_lbrack_nil (f : Nat) (cs r2 : List Char)
    (hskip : skipWs cs = ']' :: r2) :
    parseVal (f + 1) ('[' :: cs) = some (.arr [], r2) := by
  simp [parseVal, skipWs, isWs, hskip]

theorem parseVal_lbrack (f : Nat) (cs : List Char) (c2 : Char) (r2 : List Char)
    (hskip : skipWs cs = c2 :: r2) (hne : c2 ≠ ']') :
    parseVal (f + 1) ('[' :: cs) =
      match parseItems f (c2 :: r2) with
      | some (xs, r3) => some (.arr xs, r3)
      | none => none := by
  simp [parseVal, skipWs, isWs, hskip, hne]

theorem parseVal_lbrace_nil (f : Nat) (cs r2 : List Char)
    (hskip : skipWs cs = '\x7d' :: r2) :
    parseVal (f + 1) ('\x7b' :: cs) = some (.obj [], r2) := by
  simp [parseVal, skipWs, isWs, hskip]

theorem parseVal_lbrace (f : Nat) (cs : List Char) (c2 : Char) (r2 : List Char)
    (hskip : skipWs cs = c2 :: r2) (hne : c2 ≠ '\x7d') :
    parseVal (f + 1) ('\x7b' :: cs) =
      match parsePairs f (c2 :: r2) with
      | some (kvs, r3) => some (.obj kvs, r3)
      | none => none := by
  simp [parseVal, skipWs, isWs, hskip, hne]

theorem parseItems_last (f : Nat) (cs : List Char) (v : JSON) (r r2 : List Char)
    (hval : parseVal f cs = some (v, r)) (hskip : skipWs r = ']' :: r2) :
    parseItems (f + 1) cs = some ([v], r2) := by
  simp [parseItems, hval, hskip]

theorem parseItems_more (f : Nat) (cs : List Char) (v : JSON) (r r2 : List Char)
    (hval : parseVal f cs = some (v, r)) (hskip : skipWs r = ',' :: r2) :
    parseItems (f + 1) cs =
      match parseItems f r2 with
      | some (vs, r3) => some (v :: vs, r3)
      | none => none := by
  simp [parseItems, hval, hskip]

theorem parsePairs_step (f : Nat) (cs : List Char) (rk : List Char)
    (k : List Char) (r r2 : List Char) (v : JSON) (r3 : List Char) (c3 : Char)
    (r4 : List Char) (hskip1 : skipWs cs = '"' :: r)
    (hkey : parseStrBody r = some (k, rk)) (hskip2 : skipWs rk = ':' :: r2)
    (hval : parseVal f r2 = some (v, r3)) (hskip3 : skipWs r3 = c3 :: r4) :
    parsePairs (f + 1) cs =
      if c3 = '\x7d' then some ([(String.mk k, v)], r4)
      else if c3 = ',' then
        match parsePairs f r4 with
        | some (kvs, r5) => some ((String.mk k, v) :: kvs, r5)
        | none => none
      else none := by
  simp [parsePairs, hskip1, hkey, hskip2, hval, hskip3]

theorem parseVal_int (f : Nat) (n : Int) (rest : List Char)
    (hrest : numSafe rest = true) :
    parseVal (f + 1) (intChars n ++ rest) = some (.int n, rest) := by
  rw [intChars]
  by_cases hn : n < 0
  · rw [if_pos hn, List.cons_append, parseVal_dash,
      parseDigits_natDigits _ _ hrest]
    have he : -((n.natAbs : Nat) : Int) = n := by omega
    show some (JSON.int (-((n.natAbs : Nat) : Int)), rest) = some (JSON.int n, rest)
    rw [he]
  · rw [if_neg hn]
    cases hnd : natDigits n.toNat with
    | nil => exact absurd hnd (natDigits_ne_nil _)
    | cons d ds =>
      have hd : d.isDigit = true :=
        natDigits_all_digits n.toNat d (by rw [hnd]; simp)
      rw [List.cons_append, parseVal_digit f d _ hd, ← List.cons_append, ← hnd,
        parseDigits_natDigits _ _ hrest]
      have he : ((n.toNat : Nat) : Int) = n := by omega
      simp [he]

theorem parseVal_str (f : Nat) (s : String) (rest : List Char) :
    parseVal (f + 1) (strChars s ++ rest) = some (.str s, rest) := by
  rw [strChars, List.cons_append, parseVal_quote]
  rw [List.append_assoc, List.singleton_append, parseStrBody_escList]

theorem parseVal_ws (g : Nat) (pre cs : List Char)
    (hpre : ∀ c ∈ pre, isWs c = true) :
    parseVal (g + 1) (pre ++ cs) = parseVal (g + 1) cs := by
  rw [parseVal, parseVal, skipWs_ws_append pre _ hpre]

theorem parse_dump (fuel : Nat) :
    (∀ v ind pre rest, (∀ c ∈ pre, isWs c = true) → jCount v ≤ fuel →
        numSafe rest = true →
        parseVal fuel (pre ++ (dumpVal ind v ++ rest)) = some (v, rest)) ∧
    (∀ x t ind pre mid rest, (∀ c ∈ pre, isWs c = true) →
        (∀ c ∈ mid, isWs c = true) → jCountList (x :: t) ≤ fuel →
        parseItems fuel
          (pre ++ (dumpVal ind x ++ (dumpItems ind t ++ (mid ++ ']' :: rest)))) =
          some (x :: t, rest)) ∧
    (∀ k v t ind pre mid rest, (∀ c ∈ pre, isWs c = true) →
        (∀ c ∈ mid, isWs c = true) → jCountObj ((k, v) :: t) ≤ fuel →
        parsePairs fuel
          (pre ++ (strChars k ++ ':' :: ' ' ::
            (dumpVal ind v ++ (dumpPairs ind t ++ (mid ++ '\x7d' :: rest))))) =
          some ((k, v) :: t, rest)) := by
  induction fuel with
  | zero =>
    refine ⟨fun v _ _ _ _ hf _ => absurd hf (by have := jCount_pos v; omega),
      fun x t _ _ _ _ _ _ hf => absurd hf (by simp only [jCountList]; omega),
      fun k v t _ _ _ _ _ _ hf => absurd hf (by simp only [jCountObj]; omega)⟩
  | succ f ih =>
    obtain ⟨ihV, ihI, ihP⟩ := ih
    refine ⟨?_, ?_, ?_⟩
    · intro v ind pre rest hpre hfuel hrest
      rw [parseVal_ws f _ _ hpre]
      cases v with
      | null => simp [dumpVal, parseVal, skipWs, isWs]
      | bool b => cases b <;> simp [dumpVal, parseVal, skipWs, isWs]
      | int n =>
        rw [show dumpVal ind (.int n) = intChars n from by simp [dumpVal]]
        exact parseVal_int f n rest hrest
      | str s =>
        rw [show dumpVal ind (.str s) = strChars s from by simp [dumpVal]]
        exact parseVal_str f s rest
      | arr xs =>
        cases xs with
        | nil =>
          rw [show dumpVal ind (.arr []) ++ rest = '[' :: (']' :: rest) from by
            simp [dumpVal]]
          exact parseVal_lbrack_nil f _ rest (skipWs_not_ws _ _ (by decide))
        | cons x t =>
          obtain ⟨c0, l0, hc0, hw0, hb0, _⟩ := dumpVal_head (ind + 4) x
          rw [show dumpVal ind (.arr (x :: t)) ++ rest =
              '[' :: (nlChars (ind + 4) ++ (dumpVal (ind + 4) x ++
                (dumpItems (ind + 4) t ++ (nlChars ind ++ (']' :: rest))))) from by
            simp [dumpVal, List.append_assoc]]
          have hskip : skipWs (nlChars (ind + 4) ++ (dumpVal (ind + 4) x ++
              (dumpItems (ind + 4) t ++ (nlChars ind ++ (']' :: rest))))) =
              c0 :: (l0 ++ (dumpItems (ind + 4) t ++
                (nlChars ind ++ (']' :: rest)))) := by
            rw [skipWs_ws_append _ _ (nlChars_ws (ind + 4)), hc0,
              List.cons_append, skipWs_not_ws _ _ hw0]
          rw [parseVal_lbrack f _ c0 _ hskip hb0]
          have hitems := ihI x t (ind + 4) [] (nlChars ind) rest
            (by simp) (nlChars_ws ind)
            (by simp only [jCount] at hfuel; omega)
          simp only [List.nil_append] at hitems
          rw [show c0 :: (l0 ++ (dumpItems (ind + 4) t ++
              (nlChars ind ++ (']' :: rest)))) =
              dumpVal (ind + 4) x ++ (dumpItems (ind + 4) t ++
                (nlChars ind ++ ']' :: rest)) from by
            rw [hc0, List.cons_append]]
          rw [hitems]
      | obj kvs =>
        cases kvs with
        | nil =>
          rw [show dumpVal ind (.obj []) ++ rest = '\x7b' :: ('\x7d' :: rest) from by
            simp [dumpVal]]
          exact parseVal_lbrace_nil f _ rest (skipWs_not_ws _ _ (by decide))
        | cons kv t =>
          obtain ⟨k, v⟩ := kv
          rw [show dumpVal ind (.obj ((k, v) :: t)) ++ rest =
              '\x7b' :: (nlChars (ind + 4) ++ (strChars k ++ (':' :: ' ' ::
                (dumpVal (ind + 4) v ++ (dumpPairs (ind + 4) t ++
                  (nlChars ind ++ ('\x7d' :: rest))))))) from by
            simp [dumpVal, List.append_assoc]]
          have hskip : skipWs (nlChars (ind + 4) ++ (strChars k ++ (':' :: ' ' ::
              (dumpVal (ind + 4) v ++ (dumpPairs (ind + 4) t ++
                (nlChars ind ++ ('\x7d' :: rest))))))) =
              '"' :: ((escList k.data ++ ['"']) ++ (':' :: ' ' ::
                (dumpVal (ind + 4) v ++ (dumpPairs (ind + 4) t ++
                  (nlChars ind ++ ('\x7d' :: rest)))))) := by
            rw [skipWs_ws_append _ _ (nlChars_ws (ind + 4)), strChars,
              List.cons_append, skipWs_not_ws _ _ (by decide)]
          rw [parseVal_lbrace f _ '"' _ hskip (by decide)]
          have hpairs := ihP k v t (ind + 4) [] (nlChars ind) rest
            (by simp) (nlChars_ws ind)
            (by simp only [jCount] at hfuel; omega)
          simp only [List.nil_append] at hpairs
          rw [show ('"' : Char) :: ((escList k.data ++ ['"']) ++ (':' :: ' ' ::
              (dumpVal (ind + 4) v ++ (dumpPairs (ind + 4) t ++
                (nlChars ind ++ ('\x7d' :: rest)))))) =
              strChars k ++ ':' :: ' ' ::
                (dumpVal (ind + 4) v ++ (dumpPairs (ind + 4) t ++
                  (nlChars ind ++ '\x7d' :: rest))) from by
            rw [strChars, List.cons_append]]
          rw [hpairs]
    · intro x t ind pre mid rest hpre hmid hfuel
      have hval := ihV x ind pre (dumpItems ind t ++ (mid ++ ']' :: rest)) hpre
        (by simp only [jCountList] at hfuel; omega)
        (numSafe_dumpItems ind t mid rest hmid)
      cases t with
      | nil =>
        refine parseItems_last f _ x _ rest hval ?_
        simp only [dumpItems, List.nil_append]
        rw [skipWs_ws_append _ _ hmid, skipWs_not_ws _ _ (by decide)]
      | cons y t' =>
        have hskip : skipWs (dumpItems ind (y :: t') ++ (mid ++ ']' :: rest)) =
            ',' :: ((nlChars ind ++ dumpVal ind y ++ dumpItems ind t') ++
              (mid ++ ']' :: rest)) := by
          rw [show dumpItems ind (y :: t') =
            ',' :: (nlChars ind ++ dumpVal ind y ++ dumpItems ind t') from by
              simp [dumpItems]]
          rw [List.cons_append, skipWs_not_ws _ _ (by decide)]
        rw [parseItems_more f _ x _ _ hval hskip]
        have hnext := ihI y t' ind (nlChars ind) mid rest (nlChars_ws ind) hmid
          (by simp only [jCountList] at hfuel ⊢; omega)
        rw [show (nlChars ind ++ dumpVal ind y ++ dumpItems ind t') ++
            (mid ++ ']' :: rest) =
            nlChars ind ++ (dumpVal ind y ++ (dumpItems ind t' ++
              (mid ++ ']' :: rest))) from by simp [List.append_assoc]]
        rw [hnext]
    · intro k v t ind pre mid rest hpre hmid hfuel
      have hval := ihV v ind [' '] (dumpPairs ind t ++ (mid ++ '\x7d' :: rest))
        (by simp [isWs]) (by simp only [jCountObj] at hfuel; omega)
        (numSafe_dumpPairs ind t mid rest hmid)
      simp only [List.singleton_append] at hval
      have hskip1 : skipWs (pre ++ (strChars k ++ ':' :: ' ' ::
          (dumpVal ind v ++ (dumpPairs ind t ++ (mid ++ '\x7d' :: rest))))) =
          '"' :: ((escList k.data ++ ['"']) ++ ':' :: ' ' ::
            (dumpVal ind v ++ (dumpPairs ind t ++ (mid ++ '\x7d' :: rest)))) := by
        rw [skipWs_ws_append _ _ hpre, strChars, List.cons_append,
          skipWs_not_ws _ _ (by decide)]
      have hkey : parseStrBody ((escList k.data ++ ['"']) ++ ':' :: ' ' ::
          (dumpVal ind v ++ (dumpPairs ind t ++ (mid ++ '\x7d' :: rest)))) =
          some (k.data, ':' :: ' ' ::
            (dumpVal ind v ++ (dumpPairs ind t ++ (mid ++ '\x7d' :: rest)))) := by
        rw [List.append_assoc, List.singleton_append, parseStrBody_escList]
      cases t with
      | nil =>
        have hskip3 : skipWs (dumpPairs ind [] ++ (mid ++ '\x7d' :: rest)) =
            '\x7d' :: rest := by
          simp only [dumpPairs, List.nil_append]
          rw [skipWs_ws_append _ _ hmid, skipWs_not_ws _ _ (by decide)]
        rw [parsePairs_step f _ _ k.data _ _ v _ '\x7d' rest hskip1 hkey
          (skipWs_not_ws _ _ (by decide)) hval hskip3]
        rw [if_pos rfl, String_mk_data]
      | cons kv t' =>
        obtain ⟨k', v'⟩ := kv
        have hskip3 : skipWs (dumpPairs ind ((k', v') :: t') ++
            (mid ++ '\x7d' :: rest)) =
            ',' :: ((nlChars ind ++ strChars k' ++ ':' :: ' ' ::
              (dumpVal ind v' ++ dumpPairs ind t')) ++ (mid ++ '\x7d' :: rest)) := by
          rw [show dumpPairs ind ((k', v') :: t') =
            ',' :: (nlChars ind ++ strChars k' ++ ':' :: ' ' ::
              (dumpVal ind v' ++ dumpPairs ind t')) from by simp [dumpPairs]]
          rw [List.cons_append, skipWs_not_ws _ _ (by decide)]
        rw [parsePairs_step f _ _ k.data _ _ v _ ',' _ hskip1 hkey
          (skipWs_not_ws _ _ (by decide)) hval hskip3]
        rw [if_neg (by decide), if_pos rfl]
        have hnext := ihP k' v' t' ind (nlChars ind) mid rest (nlChars_ws ind) hmid
          (by simp only [jCountObj] at hfuel ⊢; omega)
        rw [show (nlChars ind ++ strChars k' ++ ':' :: ' ' ::
            (dumpVal ind v' ++ dumpPairs ind t')) ++ (mid ++ '\x7d' :: rest) =
            nlChars ind ++ (strChars k' ++ ':' :: ' ' ::
              (dumpVal ind v' ++ (dumpPairs ind t' ++ (mid ++ '\x7d' :: rest)))) from by
          simp [List.append_assoc]]
        rw [hnext, String_mk_data]

/-- Serialisation round-trip: `json.load` recovers exactly the object that
`json.dumps(·, indent=4)` wrote. -/
theorem json_loads_dumps (v : JSON) : json_loads (json_dumps v) = some v := by
  rw [json_loads, json_dumps]
  have hlen : (String.mk (dumpVal 0 v)).length = (dumpVal 0 v).length := rfl
  have hdata : (String.mk (dumpVal 0 v)).data = dumpVal 0 v := rfl
  rw [hlen, hdata]
  have hfuel : jCount v ≤ (dumpVal 0 v).length + 1 :=
    le_trans (jCount_le_dump v 0) (by omega)
  have h := (parse_dump ((dumpVal 0 v).length + 1)).1 v 0 [] []
    (by simp) hfuel (by simp [numSafe])
  simp only [List.nil_append, List.append_nil] at h
  rw [h]
  simp [skipWs]

/-! Embedding of the script `eazyml_upload_extract_information.py`.

The filesystem holds file text; `print` appends to a log; each remote call
is recorded in a trace.  A raised Python exception surfaces as
`Except.error` and discards the state (the text printed before the raise is
not modelled on the error path, since nothing in the script observes it). -/

/-- Python exceptions the script can raise. -/
inductive PyErr where
  | keyError (key : String)
  | nameError (name : String)
  | typeError
  | fileNotFoundError (path : String)
  | jsonDecodeError

/-- File name constants at the top of the script. -/
def AUTH_FILE : String := "authentication.json"

/-- Upload-cache file name suffix. -/
def UPLOAD_FILE : String := "upload_document.json"

/-- Extract-cache file name suffix. -/
def EXTRACT_FILE : String := "extract_information.json"

/-- The local filesystem: file name to file text. -/
abbrev FS := List (String × String)

/-- Look a file up. -/
def fsLookup : FS → String → Option String
  | [], _ => none
  | (k, v) :: t, n => if k = n then some v else fsLookup t n

/-- The check `os.path.exists`. -/
def fsExists (fs : FS) (n : String) : Bool := (fsLookup fs n).isSome

/-- The effect of `open(n, "w").write(c)`: overwrite or create. -/
def fsWrite : FS → String → String → FS
  | [], n, c => [(n, c)]
  | (k, v) :: t, n, c => if k = n then (n, c) :: t else (k, v) :: fsWrite t n c

/-- One recorded invocation of the remote `eazyml` client library. -/
inductive Call where
  | ez_auth (username : JSON) (api_key : Option JSON) (password : Option JSON)
  | ez_config (token : JSON) (config_file : String)
  | ez_upload_document (token : JSON) (document_path : String)
      (index_name : Option String) (options : JSON)
  | ez_extract_information (token : JSON) (query : String)
      (index_name : Option String) (options : JSON)

/-- Program state: filesystem, stdout log, trace of remote calls. -/
structure St where
  fs : FS
  log : List String
  calls : List Call

/-- The effect of a `print` statement. -/
def St.print (st : St) (s : String) : St := { st with log := st.log ++ [s] }

/-- Record one remote invocation. -/
def St.call (st : St) (c : Call) : St := { st with calls := st.calls ++ [c] }

/-- The opaque remote service: each client-library entry point is a pure
function from its arguments to the JSON response.  `ez_auth` takes the
keyword arguments `api_key` and `password` as options. -/
structure Oracle where
  ez_auth : JSON → Option JSON → Option JSON → JSON
  ez_config : JSON → String → JSON
  ez_upload_document : JSON → String → Option String → JSON → JSON
  ez_extract_information : JSON → String → Option String → JSON → JSON

/-- Dictionary lookup in insertion order. -/
def jlookup : List (String × JSON) → String → Option JSON
  | [], _ => none
  | (k', v) :: t, k => if k' = k then some v else jlookup t k

/-- Python subscript `v[k]`: `KeyError` when missing, `TypeError` when `v`
is not a dict. -/
def jget (v : JSON) (k : String) : Except PyErr JSON :=
  match v with
  | .obj kvs =>
    match jlookup kvs k with
    | some x => .ok x
    | none => .error (.keyError k)
  | _ => .error .typeError

mutual

/-- Python `==` on loaded JSON values. -/
def jeqb : JSON → JSON → Bool
  | .null, .null => true
  | .bool a, .bool b => a == b
  | .int a, .int b => a == b
  | .str a, .str b => a == b
  | .arr a, .arr b => jeqbList a b
  | .obj a, .obj b => jeqbObj a b
  | _, _ => false

/-- Elementwise `==` on lists. -/
def jeqbList : List JSON → List JSON → Bool
  | [], [] => true
  | a :: s, b :: t => jeqb a b && jeqbList s t
  | _, _ => false

/-- Pairwise `==` on object entries. -/
def jeqbObj : List (String × JSON) → List (String × JSON) → Bool
  | [], [] => true
  | (k, a) :: s, (k', b) :: t => k == k' && jeqb a b && jeqbObj s t
  | _, _ => false

end

/-- Substring test on character lists, for `in` on strings. -/
def strInfix (needle : List Char) : List Char → Bool
  | [] => List.isPrefixOf needle []
  | c :: t => List.isPrefixOf needle (c :: t) || strInfix needle t

/-- Python `k in v`: key test on dicts, membership on lists, substring test
on strings, `TypeError` otherwise. -/
def jhas (v : JSON) (k : String) : Except PyErr Bool :=
  match v with
  | .obj kvs => .ok (jlookup kvs k).isSome
  | .arr xs => .ok (xs.any fun x => jeqb (.str k) x)
  | .str s => .ok (strInfix k.data s.data)
  | _ => .error .typeError

/-- Python truthiness of a loaded JSON value. -/
def truthy : JSON → Bool
  | .null => false
  | .bool b => b
  | .int n => n != 0
  | .str s => s != ""
  | .arr xs => !xs.isEmpty
  | .obj kvs => !kvs.isEmpty

mutual

/-- Python `repr` of a loaded JSON value, as `print` shows containers
(string escaping inside `repr` is not reproduced; no claim depends on it). -/
def pyRepr : JSON → String
  | .null => "None"
  | .bool true => "True"
  | .bool false => "False"
  | .int n => String.mk (intChars n)
  | .str s => "'" ++ s ++ "'"
  | .arr xs => "[" ++ pyReprList xs ++ "]"
  | .obj kvs => "\x7b" ++ pyReprObj kvs ++ "\x7d"

/-- Comma-separated `repr` of list elements. -/
def pyReprList : List JSON → String
  | [] => ""
  | [x] => pyRepr x
  | x :: t => pyRepr x ++ ", " ++ pyReprList t

/-- Comma-separated `repr` of dict entries. -/
def pyReprObj : List (String × JSON) → String
  | [] => ""
  | [(k, v)] => "'" ++ k ++ "': " ++ pyRepr v
  | (k, v) :: t => "'" ++ k ++ "': " ++ pyRepr v ++ ", " ++ pyReprObj t

end

/-- Python `str`, as `%s` formats a value. -/
def pyStr : JSON → String
  | .null => "None"
  | .bool true => "True"
  | .bool false => "False"
  | .int n => String.mk (intChars n)
  | .str s => s
  | .arr xs => pyRepr (.arr xs)
  | .obj kvs => pyRepr (.obj kvs)

/-- Format an optional string the way `%s` formats `None` or a `str`. -/
def pyOptStr : Option String → String
  | none => "None"
  | some s => s

/-- Embedding of `eazyml_upload` (source lines 19-73).  `query` is the
module-level global the function's "Likely next steps" print reads.  The
wall-clock duration in the timing print is elided as `[elapsed]`. -/
def eazyml_upload (ez : Oracle) (query : Option String) (token : JSON)
    (document_path : String) (index_name : Option String) (overwrite : String)
    (prefix_name : String) (st : St) : Except PyErr (JSON × St) :=
  let options : JSON := .obj [("overwrite", .str overwrite)]
  if fsExists st.fs document_path = false then
    .ok (.null, st.print ("Document doesn't exist - " ++ document_path))
  else
    let dump_file := prefix_name ++ "_" ++ UPLOAD_FILE
    match fsLookup st.fs dump_file with
    | some content =>
      match json_loads content with
      | none => .error .jsonDecodeError
      | some resp => do
        let index ← jget resp "indexed"
        .ok (index, st.print ("Returning from cache " ++ dump_file))
    | none => do
      let st := st.print "Indexing the document ..."
      let resp := ez.ez_upload_document token document_path index_name options
      let st := st.call (.ez_upload_document token document_path index_name options)
      let st := st.print (pyRepr resp)
      let s ← jget resp "success"
      let (index, st) ←
        match s with
        | .bool true => do
          let st := st.print
            ("The document is indexed successfully to EazyML from path: " ++
              document_path)
          let index ← jget resp "indexed"
          let json_obj := json_dumps resp
          let dump_file := prefix_name ++ "_" ++ UPLOAD_FILE
          let st : St := { st with fs := fsWrite st.fs dump_file json_obj }
          let st := st.print ("The response is stored in " ++ dump_file)
          pure (index, st)
        | _ => do
          let m ← jget resp "message"
          pure (JSON.bool false,
            st.print ("Upload document error: " ++ pyStr m))
      let st := st.print "Indexing document time: [elapsed] secs"
      let ind ← jget resp "indexed"
      let st := st.print
        ("A Boolean flag indicating whether document is stored (indexed) is: " ++
          pyStr ind)
      let st := st.print "Likely next steps:"
      let st := st.print
        ("    python eazyml_upload_extract_information.py --query " ++
          pyOptStr query ++ " --index_name " ++ pyOptStr index_name ++
          " --extract_information")
      let st := st.print
        "Please provide an existing index name that you mentioned while uploading a document."
      .ok (index, st)

/-- Embedding of `eazyml_extract_information` (source lines 76-123).  When
`api_name` is not `"extract_information"` the final `return answer, resp`
reads unbound locals, a `NameError`; the same happens in the cache branch
when the cached object lacks the key `"answer"`. -/
def eazyml_extract_information (ez : Oracle) (token : JSON) (api_name : String)
    (query : String) (index_name : Option String) (prefix_name : String)
    (st : St) : Except PyErr ((JSON × JSON) × St) :=
  if api_name = "extract_information" then
    let options : JSON := .obj []
    let dump_file := prefix_name ++ "_" ++ EXTRACT_FILE
    match fsLookup st.fs dump_file with
    | some content =>
      match json_loads content with
      | none => .error .jsonDecodeError
      | some resp => do
        let hasAns ← jhas resp "answer"
        if hasAns then do
          let answer ← jget resp "answer"
          .ok ((answer, resp), st.print ("Returning from cache " ++ dump_file))
        else
          .error (.nameError "answer")
    | none => do
      let st := st.print "Extracting Information "
      let resp := ez.ez_extract_information token query index_name options
      let st := st.call (.ez_extract_information token query index_name options)
      let s ← jget resp "success"
      match s with
      | .bool true => do
        let st := st.print "Information extracted successfully"
        let json_obj := json_dumps resp
        let st : St := { st with fs := fsWrite st.fs dump_file json_obj }
        let st := st.print ("The response is stored in " ++ dump_file)
        let st := st.print "Information Extracting time: [elapsed] secs"
        let answer ← jget resp "answer"
        let st := st.print
          ("The answer retrieved for provided query from the document is: " ++
            pyStr answer)
        .ok ((answer, resp), st)
      | _ => do
        let m ← jget resp "message"
        .ok ((.null, .null),
          st.print ("Information Extraction error: " ++ pyStr m))
  else
    .error (.nameError "answer")

/-- Common tail of `eazyml_auth` (source lines 149-173): both of the
source's branches build the same `content` dict and run the same
success/failure handling, differing only in the response and the keyword
argument used, which arrive here as `resp` and the recorded call `c`. -/
def eazyml_auth_tail (resp : JSON) (c : Call) (username api_key password : JSON)
    (store_info : Bool) (st : St) : Except PyErr (JSON × St) :=
  let content : JSON := .obj [("username", username), ("api_key", api_key),
    ("password", password)]
  let st := st.call c
  do
  let s ← jget resp "success"
  match s with
  | .bool true =>
    let st := st.print "Authentication successful"
    let st :=
      if store_info then
        ({ st with fs := fsWrite st.fs AUTH_FILE (json_dumps content) } : St).print
          ("Authentication information is stored in " ++ AUTH_FILE)
      else st
    do
    let token ← jget resp "token"
    .ok (token, st)
  | _ => do
    let m ← jget resp "message"
    .ok (.null, st.print ("Authentication error: " ++ pyStr m))

/-- Embedding of `eazyml_auth` (source lines 137-173): `password is not
None` selects which keyword argument carries the credential. -/
def eazyml_auth (ez : Oracle) (username api_key password : JSON)
    (store_info : Bool) (st : St) : Except PyErr (JSON × St) :=
  match password with
  | JSON.null =>
    eazyml_auth_tail (ez.ez_auth username (some api_key) none)
      (.ez_auth username (some api_key) none) username api_key JSON.null
      store_info st
  | _ =>
    eazyml_auth_tail (ez.ez_auth username none (some password))
      (.ez_auth username none (some password)) username api_key password
      store_info st

/-- Python truthiness of an optional CLI string (`None` and `""` are falsy). -/
def pyTruthyStrOpt : Option String → Bool
  | none => false
  | some s => s != ""

/-- CLI string or `None` as the Python value handed to a callee. -/
def jOfOptStr : Option String → JSON
  | none => .null
  | some s => .str s

/-- Python truthiness of the 2-tuple `eazyml_extract_information` returns:
a non-empty tuple is always truthy, whatever it holds. -/
def pyTruthyPair (_p : JSON × JSON) : Bool := true

/-- The guard `if not success:` at the end of `flow` (source line 231). -/
def flow_extract_guard (success : JSON × JSON) : Bool := !(pyTruthyPair success)

/-- Outcome of one section of `flow`: an early `return`, or fall through to
the next section with a value. -/
inductive FlowCont (α : Type) where
  | done (st : St)
  | next (a : α) (st : St)

/-- The authentication section of `flow` (source lines 183-197). -/
def flow_auth (ez : Oracle) (username api_key : Option String) (st : St) :
    Except PyErr (FlowCont JSON) :=
  if pyTruthyStrOpt username && pyTruthyStrOpt api_key then do
    let (token, st) ← eazyml_auth ez (jOfOptStr username) (jOfOptStr api_key)
      .null true st
    .ok (.next token st)
  else
    match fsLookup st.fs AUTH_FILE with
    | some content =>
      match json_loads content with
      | none => .error .jsonDecodeError
      | some auth_info => do
        let u ← jget auth_info "username"
        let k ← jget auth_info "api_key"
        let p ← jget auth_info "password"
        let (token, st) ← eazyml_auth ez u k p false st
        .ok (.next token st)
    | none =>
      .ok (.done (st.print "Please authenticate to proceed"))

/-- The configuration section of `flow` (source lines 199-207). -/
def flow_config (ez : Oracle) (config_file : Option String) (token : JSON)
    (st : St) : Except PyErr (FlowCont Unit) :=
  match config_file with
  | none => .ok (.next () st)
  | some cf =>
    if cf = "" then .ok (.next () st)
    else do
      let st := st.print "Uploading the configuration file ..."
      let resp := ez.ez_config token cf
      let st := st.call (.ez_config token cf)
      let s ← jget resp "success"
      match s with
      | .bool true =>
        .ok (.next () (st.print "Configuration file is uploaded successfully"))
      | _ => do
        let m ← jget resp "message"
        .ok (.done (st.print ("Configuration file upload error: " ++ pyStr m)))

/-- The upload section of `flow` (source lines 209-218); the counter
`check_complete_flow` is dead state and not modelled. -/
def flow_upload (ez : Oracle) (query document_path index_name : Option String)
    (overwrite prefix_name : String) (token : JSON) (st : St) :
    Except PyErr (FlowCont Unit) :=
  match document_path with
  | none => .ok (.next () st)
  | some dp =>
    if dp = "" then .ok (.next () st)
    else if pyTruthyStrOpt index_name = false then
      .ok (.done (st.print "Please provide the index name"))
    else do
      let (index, st) ← eazyml_upload ez query token dp index_name overwrite
        prefix_name st
      if truthy index then .ok (.next () st) else .ok (.done st)

/-- The extraction section of `flow` (source lines 220-232).  A missing
`index_name` is only reported, not returned from; a missing `query`
returns. -/
def flow_extract (ez : Oracle) (api_name query index_name : Option String)
    (prefix_name : String) (token : JSON) (st : St) :
    Except PyErr (FlowCont Unit) :=
  match api_name with
  | none => .ok (.next () st)
  | some an =>
    if an = "" then .ok (.next () st)
    else
      match query with
      | none =>
        .ok (.done (st.print "Please provide query to be asked in double quotes"))
      | some q =>
        if q = "" then
          .ok (.done (st.print "Please provide query to be asked in double quotes"))
        else
          let st :=
            if pyTruthyStrOpt index_name then st
            else st.print
              "Please provide index_name that was mentioned while uploading document"
          do
          let (success, st) ← eazyml_extract_information ez token an q
            index_name prefix_name st
          if flow_extract_guard success then .ok (.done st)
          else .ok (.next () st)

/-- Embedding of `flow` (source lines 176-232): the four sections in
sequence, each early `return` ending the run. -/
def flow (ez : Oracle) (username api_key config_file : Option String)
    (prefix_name : String) (document_path index_name : Option String)
    (overwrite : String) (api_name query : Option String) (st : St) :
    Except PyErr (Unit × St) := do
  match ← flow_auth ez username api_key st with
  | .done st => .ok ((), st)
  | .next token st =>
  match ← flow_config ez config_file token st with
  | .done st => .ok ((), st)
  | .next _ st =>
  match ← flow_upload ez query document_path index_name overwrite prefix_name
      token st with
  | .done st => .ok ((), st)
  | .next _ st =>
  match ← flow_extract ez api_name query index_name prefix_name token st with
  | .done st => .ok ((), st)
  | .next _ st => .ok ((), st)

/-! Claim theorems. -/

theorem fsLookup_fsWrite (fs : FS) (n c : String) :
    fsLookup (fsWrite fs n c) n = some c := by
  induction fs with
  | nil => simp [fsWrite, fsLookup]
  | cons kv t ih =>
    obtain ⟨k, v⟩ := kv
    by_cases hk : k = n
    · simp [fsWrite, fsLookup, hk]
    · simp [fsWrite, fsLookup, hk, ih]

theorem St.print_fs (st : St) (s : String) : (st.print s).fs = st.fs := rfl

theorem St.print_calls (st : St) (s : String) : (st.print s).calls = st.calls := rfl

/-- An oracle whose every response is `null`; a placeholder where the remote
service is never consulted. -/
def oracle0 : Oracle :=
  { ez_auth := fun _ _ _ => .null
    ez_config := fun _ _ => .null
    ez_upload_document := fun _ _ _ _ => .null
    ez_extract_information := fun _ _ _ _ => .null }

/-- The empty starting state. -/
def stEmpty : St := { fs := [], log := [], calls := [] }

/-- C7: with a document path that does not exist locally, `eazyml_upload`
returns `None` after printing the diagnostic, and performs no remote call:
the returned state differs from the input state only by the log line. -/
theorem C7_upload_missing_document (ez : Oracle) (q : Option String)
    (token : JSON) (dp : String) (idx : Option String) (ow pre : String)
    (st : St) (h : fsExists st.fs dp = false) :
    eazyml_upload ez q token dp idx ow pre st =
      .ok (JSON.null, st.print ("Document doesn't exist - " ++ dp)) ∧
    (st.print ("Document doesn't exist - " ++ dp)).calls = st.calls ∧
    (st.print ("Document doesn't exist - " ++ dp)).fs = st.fs := by
  refine ⟨?_, rfl, rfl⟩
  simp [eazyml_upload, h]

/-- Witness for C7 at a concrete input. -/
theorem C7_witness :
    fsExists stEmpty.fs "doc.pdf" = false ∧
    eazyml_upload oracle0 none JSON.null "doc.pdf" (some "i") "no" "P" stEmpty =
      .ok (JSON.null, stEmpty.print ("Document doesn't exist - " ++ "doc.pdf")) :=
  ⟨rfl, (C7_upload_missing_document oracle0 none JSON.null "doc.pdf" (some "i")
    "no" "P" stEmpty rfl).1⟩

/-- C2 (amended): when the document path also exists and the cached JSON has
an `"indexed"` entry, `eazyml_upload` returns exactly that entry and makes
no remote call. -/
theorem C2_upload_cache_hit (ez : Oracle) (q : Option String) (token : JSON)
    (dp : String) (idx : Option String) (ow pre : String) (st : St)
    (content : String) (resp v : JSON)
    (hdoc : fsExists st.fs dp = true)
    (hcache : fsLookup st.fs (pre ++ "_" ++ UPLOAD_FILE) = some content)
    (hparse : json_loads content = some resp)
    (hidx : jget resp "indexed" = .ok v) :
    eazyml_upload ez q token dp idx ow pre st =
      .ok (v, st.print ("Returning from cache " ++ (pre ++ "_" ++ UPLOAD_FILE))) ∧
    (st.print ("Returning from cache " ++ (pre ++ "_" ++ UPLOAD_FILE))).calls =
      st.calls := by
  refine ⟨?_, rfl⟩
  simp [eazyml_upload, hdoc, hcache, hparse, hidx, bind, Except.bind]

/-- The cached upload response used in C2's witness and counterexample. -/
def c2resp : JSON := .obj [("indexed", .bool true)]

/-- A state whose upload cache holds `c2resp` but without the document. -/
def c2st : St :=
  { fs := [("P_" ++ UPLOAD_FILE, json_dumps c2resp)], log := [], calls := [] }

/-- Witness for C2 (amended) at a concrete input: the document present, the
cache present, the cached `indexed` flag returned. -/
theorem C2_witness :
    eazyml_upload oracle0 none JSON.null "doc.pdf" (some "i") "no" "P"
      { fs := ("doc.pdf", "body") :: c2st.fs, log := [], calls := [] } =
      .ok (JSON.bool true,
        ({ fs := ("doc.pdf", "body") :: c2st.fs, log := [], calls := [] } : St).print
          ("Returning from cache " ++ ("P" ++ "_" ++ UPLOAD_FILE))) :=
  (C2_upload_cache_hit oracle0 none JSON.null "doc.pdf" (some "i") "no" "P"
    { fs := ("doc.pdf", "body") :: c2st.fs, log := [], calls := [] }
    (json_dumps c2resp) c2resp (JSON.bool true) rfl rfl
    (json_loads_dumps c2resp) rfl).1

/-- Counterexample to C2 as stated: the upload cache file exists and holds
`indexed = true`, but because the document path does not exist the function
returns `None`, not the cached value. -/
theorem C2_counterexample :
    fsExists c2st.fs ("P" ++ "_" ++ UPLOAD_FILE) = true ∧
    jget c2resp "indexed" = .ok (JSON.bool true) ∧
    eazyml_upload oracle0 none JSON.null "doc.pdf" (some "i") "no" "P" c2st =
      .ok (JSON.null, c2st.print ("Document doesn't exist - " ++ "doc.pdf")) ∧
    JSON.null ≠ JSON.bool true := by
  refine ⟨rfl, rfl, rfl, ?_⟩
  intro h
  cases h

/-- The remote service of C1's failing input: the upload endpoint answers
with the bare failure contract, success `False` and a message. -/
def c1oracle : Oracle :=
  { oracle0 with
    ez_upload_document := fun _ _ _ _ =>
      .obj [("success", .bool false), ("message", .str "boom")] }

/-- A state holding only the document, no cache files. -/
def c1st : St := { fs := [("doc.pdf", "body")], log := [], calls := [] }

/-- C1: on a failure response shaped exactly `\x7bsuccess, message\x7d`, the
error branch sets `index = False`, but the unconditional status print then
subscripts `resp["indexed"]` (source line 66) and raises `KeyError` instead
of returning the falsy value the spec describes. -/
theorem C1_upload_failure_keyerror :
    jget (c1oracle.ez_upload_document JSON.null "doc.pdf" (some "i")
      (.obj [("overwrite", .str "no")])) "success" = .ok (JSON.bool false) ∧
    eazyml_upload c1oracle none JSON.null "doc.pdf" (some "i") "no" "P" c1st =
      .error (.keyError "indexed") := ⟨rfl, rfl⟩

/-- Failure behaviour of the extractor's network branch, shared by the C3
and C10 developments. -/
theorem eazyml_extract_failure_spec (ez : Oracle) (token : JSON) (q : String)
    (idx : Option String) (pre : String) (st : St) (s m : JSON)
    (hcache : fsLookup st.fs (pre ++ "_" ++ EXTRACT_FILE) = none)
    (hs : jget (ez.ez_extract_information token q idx (.obj [])) "success" =
      .ok s)
    (hsne : s ≠ JSON.bool true)
    (hm : jget (ez.ez_extract_information token q idx (.obj [])) "message" =
      .ok m) :
    eazyml_extract_information ez token "extract_information" q idx pre st =
      .ok ((JSON.null, JSON.null),
        (((st.print "Extracting Information ").call
          (.ez_extract_information token q idx (.obj []))).print
            ("Information Extraction error: " ++ pyStr m))) := by
  rw [eazyml_extract_information]
  simp only [if_pos rfl, hcache]
  simp only [bind, Except.bind, hs]
  cases s with
  | bool b =>
    cases b
    · simp [hm, bind, Except.bind]
    · exact absurd rfl hsne
  | null => simp [hm, bind, Except.bind]
  | int n => simp [hm, bind, Except.bind]
  | str s => simp [hm, bind, Except.bind]
  | arr xs => simp [hm, bind, Except.bind]
  | obj kvs => simp [hm, bind, Except.bind]

/-- C3: with no extract cache and a remote response whose `success` is not
`True`, `eazyml_extract_information` returns `(None, None)` and the
filesystem is unchanged (no cache file written); the only effects are the
two log lines and the recorded remote call. -/
theorem C3_extract_failure (ez : Oracle) (token : JSON) (q : String)
    (idx : Option String) (pre : String) (st : St) (s m : JSON)
    (hcache : fsLookup st.fs (pre ++ "_" ++ EXTRACT_FILE) = none)
    (hs : jget (ez.ez_extract_information token q idx (.obj [])) "success" =
      .ok s)
    (hsne : s ≠ JSON.bool true)
    (hm : jget (ez.ez_extract_information token q idx (.obj [])) "message" =
      .ok m) :
    eazyml_extract_information ez token "extract_information" q idx pre st =
      .ok ((JSON.null, JSON.null),
        (((st.print "Extracting Information ").call
          (.ez_extract_information token q idx (.obj []))).print
            ("Information Extraction error: " ++ pyStr m))) ∧
    ((((st.print "Extracting Information ").call
      (.ez_extract_information token q idx (.obj []))).print
        ("Information Extraction error: " ++ pyStr m))).fs = st.fs :=
  ⟨eazyml_extract_failure_spec ez token q idx pre st s m hcache hs hsne hm, rfl⟩

/-- The remote service of C3's witness: extraction fails with a message. -/
def c3oracle : Oracle :=
  { oracle0 with
    ez_extract_information := fun _ _ _ _ =>
      .obj [("success", .bool false), ("message", .str "no index")] }

/-- Witness for C3 at a concrete input. -/
theorem C3_witness :
    eazyml_extract_information c3oracle JSON.null "extract_information" "q?"
      (some "i") "P" stEmpty =
      .ok ((JSON.null, JSON.null),
        (((stEmpty.print "Extracting Information ").call
          (.ez_extract_information JSON.null "q?" (some "i") (.obj []))).print
            ("Information Extraction error: " ++ pyStr (.str "no index")))) :=
  (C3_extract_failure c3oracle JSON.null "q?" (some "i") "P" stEmpty
    (JSON.bool false) (.str "no index") rfl rfl
    (fun h => by cases h) rfl).1

/-- C9: on a cache hit, the extractor's return value is defined exactly when
the cached object has the key `"answer"`: then it returns
`(resp["answer"], resp)`; otherwise the `return answer, resp` reads the
never-assigned local `answer` and raises `NameError`. -/
theorem C9_extract_cache_answer (ez : Oracle) (token : JSON) (q : String)
    (idx : Option String) (pre : String) (st : St) (content : String)
    (resp : JSON)
    (hcache : fsLookup st.fs (pre ++ "_" ++ EXTRACT_FILE) = some content)
    (hparse : json_loads content = some resp) :
    (∀ a, jhas resp "answer" = .ok true → jget resp "answer" = .ok a →
      eazyml_extract_information ez token "extract_information" q idx pre st =
        .ok ((a, resp),
          st.print ("Returning from cache " ++ (pre ++ "_" ++ EXTRACT_FILE)))) ∧
    (jhas resp "answer" = .ok false →
      eazyml_extract_information ez token "extract_information" q idx pre st =
        .error (.nameError "answer")) := by
  constructor
  · intro a hhas hget
    rw [eazyml_extract_information]
    simp [hcache, hparse, hhas, hget, bind, Except.bind]
  · intro hhas
    rw [eazyml_extract_information]
    simp [hcache, hparse, hhas, bind, Except.bind]

/-- The cached extract response of C9's witness. -/
def c9resp : JSON := .obj [("success", .bool true), ("answer", .str "42")]

/-- A state whose extract cache holds `c9resp`. -/
def c9st : St :=
  { fs := [("P_" ++ EXTRACT_FILE, json_dumps c9resp)], log := [], calls := [] }

/-- Witness for C9 at a concrete input (the key present). -/
theorem C9_witness :
    eazyml_extract_information oracle0 JSON.null "extract_information" "q?"
      none "P" c9st =
      .ok ((JSON.str "42", c9resp),
        c9st.print ("Returning from cache " ++ ("P" ++ "_" ++ EXTRACT_FILE))) :=
  (C9_extract_cache_answer oracle0 JSON.null "q?" none "P" c9st
    (json_dumps c9resp) c9resp rfl (json_loads_dumps c9resp)).1
    (JSON.str "42") rfl rfl

/-- Success behaviour of the common authentication tail: the token is
returned; with `store_info` the pretty-printed credentials dict is on file,
without it the filesystem is untouched. -/
theorem eazyml_auth_tail_success (resp : JSON) (c : Call)
    (username api_key password : JSON) (store_info : Bool) (st : St) (tk : JSON)
    (hs : jget resp "success" = .ok (JSON.bool true))
    (ht : jget resp "token" = .ok tk) :
    ∃ st' : St,
      eazyml_auth_tail resp c username api_key password store_info st =
        .ok (tk, st') ∧
      (store_info = true →
        fsLookup st'.fs AUTH_FILE =
          some (json_dumps (.obj [("username", username), ("api_key", api_key),
            ("password", password)]))) ∧
      (store_info = false → st'.fs = st.fs) := by
  rw [eazyml_auth_tail]
  simp only [bind, Except.bind, hs, ht]
  cases store_info <;> refine ⟨_, rfl, ?_, ?_⟩
  · intro h
    simp at h
  · intro _
    simp [St.print, St.call]
  · intro _
    simp [St.print, St.call, fsLookup_fsWrite]
  · intro h
    simp at h

/-- C5: when the remote authentication endpoint answers with success `True`
(whichever keyword argument carries the credential), the token from the
response is returned; with `store_info` set, the credentials dict
`\x7busername, api_key, password\x7d` is written verbatim (pretty-printed) to the
auth file, and without it no file is written. -/
theorem C5_auth_success (ez : Oracle) (username api_key password : JSON)
    (store_info : Bool) (st : St) (tk : JSON)
    (hs : ∀ ak pw, jget (ez.ez_auth username ak pw) "success" =
      .ok (JSON.bool true))
    (ht : ∀ ak pw, jget (ez.ez_auth username ak pw) "token" = .ok tk) :
    ∃ st' : St,
      eazyml_auth ez username api_key password store_info st = .ok (tk, st') ∧
      (store_info = true →
        fsLookup st'.fs AUTH_FILE =
          some (json_dumps (.obj [("username", username), ("api_key", api_key),
            ("password", password)]))) ∧
      (store_info = false → st'.fs = st.fs) := by
  cases password <;>
    rw [eazyml_auth] <;>
      first
        | exact eazyml_auth_tail_success _ _ _ _ _ _ _ _ (hs _ _) (ht _ _)
        | simp

/-- The remote service of C5's witness: authentication succeeds with a
token. -/
def c5oracle : Oracle :=
  { oracle0 with
    ez_auth := fun _ _ _ => .obj [("success", .bool true), ("token", .str "T")] }

/-- Witness for C5 at a concrete input (`store_info` set). -/
theorem C5_witness :
    ∃ st' : St,
      eazyml_auth c5oracle (.str "u") (.str "k") JSON.null true stEmpty =
        .ok (JSON.str "T", st') ∧
      (true = true →
        fsLookup st'.fs AUTH_FILE =
          some (json_dumps (.obj [("username", .str "u"), ("api_key", .str "k"),
            ("password", JSON.null)]))) ∧
      (true = false → st'.fs = stEmpty.fs) :=
  C5_auth_success c5oracle (.str "u") (.str "k") JSON.null true stEmpty
    (.str "T") (fun _ _ => rfl) (fun _ _ => rfl)

/-- Counterexample to C6 as stated: on a successful authentication with
`store_info` set, `authentication.json` receives the credentials dict, which
differs from the remote response `\x7bsuccess, token\x7d` the claim says each
persisted file mirrors. -/
theorem C6_counterexample :
    (match eazyml_auth c5oracle (.str "u") (.str "k") JSON.null true stEmpty with
     | .ok (_, st') => fsLookup st'.fs AUTH_FILE
     | .error _ => none) =
      some (json_dumps (.obj [("username", .str "u"), ("api_key", .str "k"),
        ("password", JSON.null)])) ∧
    json_dumps (.obj [("username", .str "u"), ("api_key", .str "k"),
      ("password", JSON.null)]) ≠
      json_dumps (.obj [("success", .bool true), ("token", .str "T")]) ∧
    c5oracle.ez_auth (.str "u") (some (.str "k")) none =
      .obj [("success", .bool true), ("token", .str "T")] := by
  refine ⟨rfl, ?_, rfl⟩
  decide

/-- C6 (amended): the upload and extract cache files each receive the
pretty-printed remote response verbatim, but `authentication.json` receives
the pretty-printed credentials dict `\x7busername, api_key, password\x7d`, not
the remote response. -/
theorem C6_persisted_files :
    (∀ (ez : Oracle) (q : Option String) (token : JSON) (dp : String)
        (idx : Option String) (ow pre : String) (st : St) (v : JSON) (stX : St),
      fsExists st.fs dp = true →
      fsLookup st.fs (pre ++ "_" ++ UPLOAD_FILE) = none →
      jget (ez.ez_upload_document token dp idx (.obj [("overwrite", .str ow)]))
        "success" = .ok (JSON.bool true) →
      eazyml_upload ez q token dp idx ow pre st = .ok (v, stX) →
      fsLookup stX.fs (pre ++ "_" ++ UPLOAD_FILE) =
        some (json_dumps
          (ez.ez_upload_document token dp idx (.obj [("overwrite", .str ow)])))) ∧
    (∀ (ez : Oracle) (token : JSON) (q : String) (idx : Option String)
        (pre : String) (st : St) (a : JSON × JSON) (stX : St),
      fsLookup st.fs (pre ++ "_" ++ EXTRACT_FILE) = none →
      jget (ez.ez_extract_information token q idx (.obj [])) "success" =
        .ok (JSON.bool true) →
      eazyml_extract_information ez token "extract_information" q idx pre st =
        .ok (a, stX) →
      fsLookup stX.fs (pre ++ "_" ++ EXTRACT_FILE) =
        some (json_dumps (ez.ez_extract_information token q idx (.obj [])))) ∧
    (∀ (ez : Oracle) (username api_key password : JSON) (st : St)
        (tk : JSON) (stX : St),
      (∀ ak pw, jget (ez.ez_auth username ak pw) "success" =
        .ok (JSON.bool true)) →
      (∀ ak pw, jget (ez.ez_auth username ak pw) "token" = .ok tk) →
      eazyml_auth ez username api_key password true st = .ok (tk, stX) →
      fsLookup stX.fs AUTH_FILE =
        some (json_dumps (.obj [("username", username), ("api_key", api_key),
          ("password", password)]))) := by
  refine ⟨?_, ?_, ?_⟩
  · intro ez q token dp idx ow pre st v stX hdoc hcache hs hrun
    rw [eazyml_upload] at hrun
    simp only [hdoc, Bool.true_eq_false, if_false, reduceIte, hcache,
      bind, Except.bind, hs] at hrun
    cases hidx : jget (ez.ez_upload_document token dp idx
        (.obj [("overwrite", .str ow)])) "indexed" with
    | error e => rw [hidx] at hrun; cases hrun
    | ok w =>
      rw [hidx] at hrun
      simp only [] at hrun
      cases hrun
      simp [St.print, St.call, fsLookup_fsWrite]
  · intro ez token q idx pre st a stX hcache hs hrun
    rw [eazyml_extract_information] at hrun
    simp only [if_pos rfl, hcache, bind, Except.bind, hs] at hrun
    cases hans : jget (ez.ez_extract_information token q idx (.obj []))
        "answer" with
    | error e => rw [hans] at hrun; cases hrun
    | ok w =>
      rw [hans] at hrun
      simp only [] at hrun
      cases hrun
      simp [St.print, St.call, fsLookup_fsWrite]
  · intro ez username api_key password st tk stX hs ht hrun
    cases password <;>
      rw [eazyml_auth] at hrun <;>
        first
          | (obtain ⟨st', heq, hw, _⟩ :=
              eazyml_auth_tail_success _ _ username api_key _ true st tk
                (hs _ _) (ht _ _)
             rw [heq] at hrun
             cases hrun
             exact hw rfl)
          | simp

/-- The state a run ends in (`stEmpty` for a raised exception). -/
def resultState (r : Except PyErr (JSON × St)) : St :=
  match r with
  | .ok (_, st) => st
  | .error _ => stEmpty

/-- The state an extraction run ends in (`stEmpty` for a raised exception). -/
def resultStateE (r : Except PyErr ((JSON × JSON) × St)) : St :=
  match r with
  | .ok (_, st) => st
  | .error _ => stEmpty

/-- The remote service of C6's witness: every endpoint succeeds. -/
def c6wOracle : Oracle :=
  { ez_auth := fun _ _ _ => .obj [("success", .bool true), ("token", .str "T")]
    ez_config := fun _ _ => .null
    ez_upload_document := fun _ _ _ _ =>
      .obj [("success", .bool true), ("indexed", .bool true)]
    ez_extract_information := fun _ _ _ _ =>
      .obj [("success", .bool true), ("answer", .str "42")] }

/-- Witness for C6 (amended) at concrete inputs: all three persisted files. -/
theorem C6_witness :
    fsLookup (resultState (eazyml_upload c6wOracle none JSON.null "doc.pdf"
        (some "i") "no" "P" c1st)).fs ("P" ++ "_" ++ UPLOAD_FILE) =
      some (json_dumps (.obj [("success", .bool true), ("indexed", .bool true)])) ∧
    fsLookup (resultStateE (eazyml_extract_information c6wOracle JSON.null
        "extract_information" "q?" (some "i") "P" c1st)).fs
        ("P" ++ "_" ++ EXTRACT_FILE) =
      some (json_dumps (.obj [("success", .bool true), ("answer", .str "42")])) ∧
    fsLookup (resultState (eazyml_auth c6wOracle (.str "u") (.str "k")
        JSON.null true stEmpty)).fs AUTH_FILE =
      some (json_dumps (.obj [("username", .str "u"), ("api_key", .str "k"),
        ("password", JSON.null)])) := by
  refine ⟨?_, ?_, ?_⟩
  · exact C6_persisted_files.1 c6wOracle none JSON.null "doc.pdf" (some "i")
      "no" "P" c1st _ _ rfl rfl rfl rfl
  · exact C6_persisted_files.2.1 c6wOracle JSON.null "q?" (some "i") "P" c1st
      _ _ rfl rfl rfl
  · exact C6_persisted_files.2.2 c6wOracle (.str "u") (.str "k") JSON.null
      stEmpty (.str "T") _ (fun _ _ => rfl) (fun _ _ => rfl) rfl

/-- The remote service of C4's counterexample: authentication fails, upload
succeeds. -/
def c4oracle : Oracle :=
  { ez_auth := fun _ _ _ =>
      .obj [("success", .bool false), ("message", .str "bad")]
    ez_config := fun _ _ => .null
    ez_upload_document := fun _ _ _ _ =>
      .obj [("success", .bool true), ("indexed", .bool true)]
    ez_extract_information := fun _ _ _ _ => .null }

/-- Counterexample to C4 as stated: after a failed authentication (`success`
is `False` and `eazyml_auth` returns `None`), `flow` does not abort: the
trace shows the upload endpoint is still invoked, with `None` as the token.
Moreover the falsiness check after extraction can never fire, because the
returned pair `(None, None)` is a truthy tuple. -/
theorem C4_counterexample :
    jget (c4oracle.ez_auth (.str "u") (some (.str "k")) none) "success" =
      .ok (JSON.bool false) ∧
    (match flow c4oracle (some "u") (some "k") none "P" (some "doc.pdf")
        (some "i") "no" none none c1st with
     | .ok (_, st') => st'.calls
     | .error _ => []) =
      [Call.ez_auth (.str "u") (some (.str "k")) none,
       Call.ez_upload_document JSON.null "doc.pdf" (some "i")
         (.obj [("overwrite", .str "no")])] ∧
    flow_extract_guard (JSON.null, JSON.null) = false := ⟨rfl, rfl, rfl⟩

/-- C4 (amended): a falsy result from `eazyml_upload` makes `flow` return at
once, performing no extraction step: the final state is exactly the one the
upload left.  (An authentication failure does not abort, and extraction's
`(None, None)` failure value is a truthy tuple, so the final falsiness check
never fires; extraction is simply the last step.) -/
theorem C4_flow_aborts_on_falsy_upload (ez : Oracle)
    (username api_key : Option String) (pre : String) (dp : String)
    (idx : Option String) (ow : String) (api_name q : Option String)
    (st : St) (token : JSON) (st1 st2 : St) (index : JSON)
    (hu : pyTruthyStrOpt username = true)
    (hk : pyTruthyStrOpt api_key = true)
    (hauth : eazyml_auth ez (jOfOptStr username) (jOfOptStr api_key) JSON.null
      true st = .ok (token, st1))
    (hdp : dp ≠ "")
    (hidx : pyTruthyStrOpt idx = true)
    (hupload : eazyml_upload ez q token dp idx ow pre st1 = .ok (index, st2))
    (hfalsy : truthy index = false) :
    flow ez username api_key none pre (some dp) idx ow api_name q st =
      .ok ((), st2) ∧
    flow_extract_guard (JSON.null, JSON.null) = false := by
  refine ⟨?_, rfl⟩
  rw [flow, flow_auth]
  simp only [hu, hk, Bool.and_self, reduceIte, bind, Except.bind, hauth]
  rw [flow_config]
  simp only [bind, Except.bind]
  rw [flow_upload]
  simp only [hdp, reduceIte, hidx, bind, Except.bind, hupload, hfalsy,
    Bool.false_eq_true, Bool.true_eq_false, if_false]

/-- The state a `flow` run ends in (`stEmpty` for a raised exception). -/
def flowState (r : Except PyErr (Unit × St)) : St :=
  match r with
  | .ok (_, st) => st
  | .error _ => stEmpty

/-- The remote service of C4's witness: authentication succeeds, the upload
is acknowledged with `indexed = False`. -/
def c4wOracle : Oracle :=
  { ez_auth := fun _ _ _ => .obj [("success", .bool true), ("token", .str "T")]
    ez_config := fun _ _ => .null
    ez_upload_document := fun _ _ _ _ =>
      .obj [("success", .bool true), ("indexed", .bool false)]
    ez_extract_information := fun _ _ _ _ => .null }

/-- Witness for C4 (amended) at a concrete input: the upload's falsy
`indexed` flag ends the flow in the state the upload left. -/
theorem C4_witness :
    flow c4wOracle (some "u") (some "k") none "P" (some "doc.pdf") (some "i")
      "no" (some "extract_information") (some "q?") c1st =
      .ok ((), resultState (eazyml_upload c4wOracle (some "q?") (JSON.str "T")
        "doc.pdf" (some "i") "no" "P"
        (resultState (eazyml_auth c4wOracle (.str "u") (.str "k") JSON.null
          true c1st)))) :=
  (C4_flow_aborts_on_falsy_upload c4wOracle (some "u") (some "k") "P" "doc.pdf"
    (some "i") "no" (some "extract_information") (some "q?") c1st (JSON.str "T")
    _ _ (JSON.bool false) rfl rfl rfl (by decide) rfl rfl rfl).1

/-- C10: when extraction is requested with a non-empty query but no
`index_name`, `flow` prints the index-name prompt yet does not abort: it
still calls the remote extraction endpoint with `index_name` equal to
`None`; the prompt is in the log and the call is in the trace. -/
theorem C10_missing_index_prompts_but_proceeds (ez : Oracle)
    (username api_key : Option String) (pre : String) (q : String) (st : St)
    (token : JSON) (st1 : St) (s m : JSON)
    (hu : pyTruthyStrOpt username = true)
    (hk : pyTruthyStrOpt api_key = true)
    (hauth : eazyml_auth ez (jOfOptStr username) (jOfOptStr api_key) JSON.null
      true st = .ok (token, st1))
    (hq : q ≠ "")
    (hnocache : fsLookup st1.fs (pre ++ "_" ++ EXTRACT_FILE) = none)
    (hs : jget (ez.ez_extract_information token q none (.obj [])) "success" =
      .ok s)
    (hsne : s ≠ JSON.bool true)
    (hm : jget (ez.ez_extract_information token q none (.obj [])) "message" =
      .ok m) :
    flow ez username api_key none pre none none "no"
      (some "extract_information") (some q) st =
      .ok ((), ((((st1.print
        "Please provide index_name that was mentioned while uploading document").print
          "Extracting Information ").call
            (.ez_extract_information token q none (.obj []))).print
              ("Information Extraction error: " ++ pyStr m))) ∧
    ((((st1.print
      "Please provide index_name that was mentioned while uploading document").print
        "Extracting Information ").call
          (.ez_extract_information token q none (.obj []))).print
            ("Information Extraction error: " ++ pyStr m)).calls =
      st1.calls ++ [Call.ez_extract_information token q none (.obj [])] ∧
    "Please provide index_name that was mentioned while uploading document" ∈
      ((((st1.print
        "Please provide index_name that was mentioned while uploading document").print
          "Extracting Information ").call
            (.ez_extract_information token q none (.obj []))).print
              ("Information Extraction error: " ++ pyStr m)).log := by
  have hrun := eazyml_extract_failure_spec ez token q none pre
    (st1.print
      "Please provide index_name that was mentioned while uploading document")
    s m hnocache hs hsne hm
  refine ⟨?_, ?_, ?_⟩
  · rw [flow, flow_auth]
    simp only [hu, hk, Bool.and_self, reduceIte, bind, Except.bind, hauth]
    rw [flow_config]
    simp only [bind, Except.bind]
    rw [flow_upload]
    simp only [bind, Except.bind]
    rw [flow_extract]
    simp only [bind, Except.bind, hq, reduceIte, pyTruthyStrOpt, hrun,
      flow_extract_guard, pyTruthyPair, Bool.not_true, Bool.false_eq_true,
      if_false]
    simp
  · simp [St.print, St.call]
  · simp [St.print, St.call]

/-- The remote service of C10's witness: authentication succeeds, extraction
fails with a message. -/
def c10oracle : Oracle :=
  { ez_auth := fun _ _ _ => .obj [("success", .bool true), ("token", .str "T")]
    ez_config := fun _ _ => .null
    ez_upload_document := fun _ _ _ _ => .null
    ez_extract_information := fun _ _ _ _ =>
      .obj [("success", .bool false), ("message", .str "no index")] }

/-- Witness for C10 at a concrete input. -/
theorem C10_witness :
    flow c10oracle (some "u") (some "k") none "P" none none "no"
      (some "extract_information") (some "q?") stEmpty =
      .ok ((), (((((resultState (eazyml_auth c10oracle (.str "u") (.str "k")
        JSON.null true stEmpty)).print
        "Please provide index_name that was mentioned while uploading document").print
          "Extracting Information ").call
            (.ez_extract_information (JSON.str "T") "q?" none (.obj []))).print
              ("Information Extraction error: " ++ pyStr (.str "no index")))) :=
  (C10_missing_index_prompts_but_proceeds c10oracle (some "u") (some "k") "P"
    "q?" stEmpty (JSON.str "T") _ (JSON.bool false) (.str "no index") rfl rfl
    rfl (by decide) rfl rfl (fun h => by cases h) rfl).1

/-- C8: a response written to a cache file as `json.dumps(resp, indent=4)`
is read back by `json.load` as an object equal to the original, so a later
cache hit observes exactly what was persisted. -/
theorem C8_cache_roundtrip (v : JSON) (fs : FS) (name : String) :
    fsLookup (fsWrite fs name (json_dumps v)) name = some (json_dumps v) ∧
    json_loads (json_dumps v) = some v :=
  ⟨fsLookup_fsWrite fs name (json_dumps v), json_loads_dumps v⟩
